import Mathlib

/-!
Shallow embedding of `src/nativelib/src/main/jni/whisper/jni.c`, the JNI
binding layer between a managed host runtime and the external whisper
inference engine.  The external engine (whisper.h) and the host runtime
(JNI, AssetManager, InputStream) are modelled as oracle parameters: the
binding's own behavior — arithmetic, control flow, which engine entry
points it invokes with which arguments, what it logs, and which buffers it
releases — is embedded faithfully as pure functions producing explicit
event traces.
-/

/-! ## C machine-arithmetic helpers

`jint` is a 32-bit signed integer, `size_t` a 64-bit unsigned integer on
the target (Android, LP64).  Conversions follow two's-complement
semantics, which is what the target compiler implements. -/

/-- Reinterpret a natural number as a 32-bit two's-complement signed value
(the implementation-defined `size_t`/`unsigned` → `int` conversion on the
target). -/
def toSigned32 (n : Nat) : Int :=
  if n % 2 ^ 32 < 2 ^ 31 then ((n % 2 ^ 32 : Nat) : Int)
  else ((n % 2 ^ 32 : Nat) : Int) - 2 ^ 32

/-- The C conversion `int` → `size_t` (well-defined, modular). -/
def sizeTofNat (i : Int) : Nat := (i % (2 ^ 64 : Int)).toNat

/-- The C conversion of a `size_t` value to `int` on the target. -/
def cIntOfNat (n : Nat) : Int := toSigned32 n

/-- Embeds `static inline int min(int a, int b)` from jni.c. -/
def cMin (a b : Int) : Int := if a < b then a else b

/-! ## Stream adapter (`input_stream_context`, `inputStreamRead`,
`inputStreamEof`, `inputStreamClose`) -/

/-- The behavior of the host `InputStream.read(byte[], 0, n)` call on one
invocation: the value it returns (`jint`, may be `-1` at end of stream)
and the bytes it writes into the prefix of the freshly allocated Java
byte array (bytes are modelled as `Int` values; their identity is
irrelevant, only their propagation). -/
structure HostReadBehavior where
  nRead : Int
  delivered : List Int
  deriving DecidableEq

/-- Everything one `inputStreamRead` call does that is visible outside:
the `size_t` value returned, the bytes `memcpy`-ed into the caller's
output buffer, the updated adapter offset, whether the insufficient-read
line was logged, and the JNI buffer bookkeeping (release of the byte
array elements with `JNI_ABORT`, deletion of the local reference). -/
structure ReadOutcome where
  ret : Nat
  copied : List Int
  newOffset : Nat
  logged : Bool
  releasedByteArrayAbort : Bool
  deletedLocalRef : Bool
  deriving DecidableEq

/-- Embeds `size_to_copy` as computed at jni.c:64:
`jint size_to_copy = (jint)min(read_size, (size_t)avail_size);`
with the C conversions spelled out (`read_size : size_t` and
`(size_t)avail_size` are each converted to `int` at the call to `min`). -/
def size_to_copy (read_size : Nat) (avail : Int) : Int :=
  cMin (cIntOfNat (read_size % 2 ^ 64)) (cIntOfNat (sizeTofNat avail))

/-- Embeds `inputStreamRead` (jni.c:58-84).  `offset` is the adapter's current
`offset` field, `read_size` the requested size, `avail` the value the
host stream's `available()` returned on this call, and `hb` the behavior
of the host stream's `read` call.  The Java byte array is created by
`NewByteArray(size_to_copy)` (zero-initialized); the host read fills its
prefix with `hb.delivered`; `memcpy` then copies `size_to_copy` bytes of
it into the output buffer, the elements are released with `JNI_ABORT`,
and `offset += size_to_copy` (as `size_t`). -/
def inputStreamRead (offset : Nat) (read_size : Nat) (avail : Int)
    (hb : HostReadBehavior) : ReadOutcome :=
  let stc : Int := size_to_copy read_size avail
  let stcN : Nat := sizeTofNat stc
  let byteArr : List Int :=
    hb.delivered.take stcN ++ List.replicate (stcN - hb.delivered.length) 0
  { ret := stcN
  , copied := byteArr
  , newOffset := (offset + stcN) % 2 ^ 64
  , logged := !(decide (sizeTofNat stc = read_size % 2 ^ 64)
                 && decide (stc = hb.nRead))
  , releasedByteArrayAbort := true
  , deletedLocalRef := true }

/-- Embeds `inputStreamEof` (jni.c:90-94): `return result <= 0;` where `result`
is the value `InputStream.available()` returned. -/
def inputStreamEof (avail : Int) : Bool :=
  decide (avail ≤ 0)

/-- Embeds `inputStreamClose` (jni.c:99-101): a no-op. -/
def inputStreamClose : Unit := ()

/-- Run a sequence of `inputStreamRead` calls, threading the adapter
offset; each element of `calls` supplies that call's requested size, the
host `available()` value, and the host read behavior.  Returns the final
offset and the list of values returned. -/
def runReads : Nat → List (Nat × Int × HostReadBehavior) → Nat × List Nat
  | offset, [] => (offset, [])
  | offset, (rs, av, hb) :: rest =>
    let o := inputStreamRead offset rs av hb
    let r := runReads o.newOffset rest
    (r.1, o.ret :: r.2)

/-- The value each call in a sequence returns (independent of the
starting offset and of the host read behaviors). -/
def retsOf (calls : List (Nat × Int × HostReadBehavior)) : List Nat :=
  calls.map (fun c => sizeTofNat (size_to_copy c.1 c.2.1))

/-! ## Inference invocation (`fullTranscribe`) -/

/-- The sampling strategy argument of `whisper_full_default_params`. -/
inductive SamplingStrategy
  | greedy
  | beamSearch
  deriving DecidableEq

/-- The engine's `whisper_full_params` record, restricted to the fields
this binding layer touches, plus `otherDefaults` standing for every field
it leaves at the engine's default value. -/
structure WhisperFullParams where
  strategy : SamplingStrategy
  translate : Bool
  print_realtime : Bool
  print_progress : Bool
  print_timestamps : Bool
  print_special : Bool
  language : String
  n_threads : Int
  offset_ms : Int
  no_context : Bool
  single_segment : Bool
  otherDefaults : Nat
  deriving DecidableEq

/-- JNI release mode for array elements: `0` (copy back and free) or
`JNI_ABORT` (free without copying back). -/
inductive ReleaseMode
  | commit
  | jniAbort
  deriving DecidableEq

/-- JNI semantics of `ReleaseFloatArrayElements(mode)`: the caller's
array contents after the release, given the original contents and the
contents of the pinned/copied native buffer at release time.  `JNI_ABORT`
discards any native-side modifications. -/
def releaseFloatArray (mode : ReleaseMode) (caller scratch : List Int) :
    List Int :=
  match mode with
  | .commit => scratch
  | .jniAbort => caller

/-- The observable actions `fullTranscribe` performs, in order. -/
inductive TranscribeEvent
  | getFloatArrayElements
  | getArrayLength
  | getStringUTFChars
  | logInfo (msg : String)
  | resetTimings
  | callFull (p : WhisperFullParams) (nSamples : Nat)
  | printTimings
  | releaseStringUTFChars
  | releaseFloatArrayElements (mode : ReleaseMode)
  deriving DecidableEq

/-- The result of one `fullTranscribe` call: its event trace and the
exception (if any) raised to the host.  The JNI function's return type is
`void`, so the trace and the exception slot are the only channels back to
the caller. -/
structure TranscribeResult where
  trace : List TranscribeEvent
  javaException : Option String
  deriving DecidableEq

/-- The parameter overlay performed at jni.c:268-278: caller-supplied
language, thread count and translate flag, fixed flag settings, on top of
`whisper_full_default_params(WHISPER_SAMPLING_GREEDY)`. -/
def overlayParams (dflt : WhisperFullParams) (lang : String)
    (numThreads : Int) (translate : Bool) : WhisperFullParams :=
  { dflt with
    translate := translate
    print_realtime := false
    print_progress := false
    print_timestamps := false
    print_special := false
    language := lang
    n_threads := numThreads
    offset_ms := 0
    no_context := true
    single_segment := false }

/-- Embeds `Java_com_whispercpp_whisper_WhisperLib_fullTranscribe`
(jni.c:256-290).  `defaults` is the engine's
`whisper_full_default_params` oracle, `fullResult` the value
`whisper_full` returns on this invocation, `audio` the caller's sample
array (bit patterns; their values are never inspected by this layer). -/
def fullTranscribe (defaults : SamplingStrategy → WhisperFullParams)
    (fullResult : Int) (lang : String) (numThreads : Int)
    (translate : Bool) (audio : List Int) : TranscribeResult :=
  let params := overlayParams (defaults .greedy) lang numThreads translate
  { trace :=
      [ .getFloatArrayElements, .getArrayLength, .getStringUTFChars
      , .logInfo ("Language: " ++ lang)
      , .resetTimings
      , .logInfo "About to run whisper_full"
      , .callFull params audio.length ]
      ++ (if fullResult ≠ 0 then [.logInfo "Failed to run the model"]
          else [.printTimings])
      ++ [ .releaseStringUTFChars
         , .releaseFloatArrayElements .jniAbort ]
  , javaException := none }

/-- The parameters handed to the engine's `whisper_full` in a trace
(the first `callFull` event's payload). -/
def paramsSentToEngine : List TranscribeEvent → Option WhisperFullParams
  | [] => none
  | .callFull p _ :: _ => some p
  | _ :: rest => paramsSentToEngine rest

/-- What the host caller can distinguish after a `fullTranscribe` call:
the returned value is `void`, so only a raised exception would be
visible. -/
def callerVisible (t : TranscribeResult) : Option String :=
  t.javaException

/-! ## Context lifecycle (initializers and destructor) -/

/-- Which callback functions a `whisper_model_loader` is wired with,
identified by their C function names. -/
structure LoaderWiring where
  readFn : String
  eofFn : String
  closeFn : String
  deriving DecidableEq

/-- The engine's `whisper_context_params`; the binding only ever uses
`whisper_context_default_params()`. -/
inductive CtxParams
  | defaults
  deriving DecidableEq

/-- The engine model-loading entry points the binding can invoke, with
the arguments it passes.  `initPlain` is `whisper_init(loader)` (no
parameter argument), `initWithParams` is
`whisper_init_with_params(loader, params)`, `initFromFile` is
`whisper_init_from_file_with_params(path, params)`. -/
inductive EngineInitCall
  | initPlain (w : LoaderWiring)
  | initWithParams (w : LoaderWiring) (p : CtxParams)
  | initFromFile (path : String) (p : CtxParams)
  deriving DecidableEq

/-- Observable actions of an initializer entry point. -/
inductive InitEvent
  | logLoadingAsset (path : String)
  | assetManagerFromJava
  | assetOpenStreaming (path : String)
  | logWarnOpenFailed (path : String)
  | getStringUTFChars
  | releaseStringUTFChars
  | getMethodIDAvailable
  | getMethodIDRead
  | engine (c : EngineInitCall)
  deriving DecidableEq

/-- Result of an initializer: the `jlong` handle returned to the host
(the engine context pointer reinterpreted as an integer, `0` when the
loader returned `NULL`) and the event trace. -/
structure InitResult where
  handle : Int
  events : List InitEvent
  deriving DecidableEq

/-- The loader wiring built by `whisper_init_from_asset` (jni.c:186-191). -/
def assetWiring : LoaderWiring :=
  ⟨"asset_read", "asset_is_eof", "asset_close"⟩

/-- The loader wiring built by `initContextFromInputStream`
(jni.c:134-137). -/
def streamWiring : LoaderWiring :=
  ⟨"inputStreamRead", "inputStreamEof", "inputStreamClose"⟩

/-- Embeds `whisper_init_from_asset` (jni.c:173-194).  `engine` is the oracle
for the engine loaders (the handle value each call returns; `0` models a
`NULL` result); `openOk` tells whether `AAssetManager_open` succeeded for
this path. -/
def whisper_init_from_asset (engine : EngineInitCall → Int)
    (openOk : Bool) (path : String) : InitResult :=
  if openOk then
    let c := EngineInitCall.initWithParams assetWiring .defaults
    { handle := engine c
    , events := [ .logLoadingAsset path, .assetManagerFromJava
                , .assetOpenStreaming path, .engine c ] }
  else
    { handle := 0
    , events := [ .logLoadingAsset path, .assetManagerFromJava
                , .assetOpenStreaming path, .logWarnOpenFailed path ] }

/-- Embeds `Java_com_whispercpp_whisper_WhisperLib_initContextFromAsset`
(jni.c:199-208): fetches the path string, delegates to
`whisper_init_from_asset`, releases the string, returns the handle. -/
def initContextFromAsset (engine : EngineInitCall → Int)
    (openOk : Bool) (path : String) : InitResult :=
  let inner := whisper_init_from_asset engine openOk path
  { handle := inner.handle
  , events := .getStringUTFChars :: inner.events ++ [.releaseStringUTFChars] }

/-- Embeds `Java_com_whispercpp_whisper_WhisperLib_00024Companion_initContextFromInputStream`
(jni.c:113-142): builds an `input_stream_context` with `offset = 0`,
looks up the stream's `available` and `read` method IDs, wires the
adapter callbacks into a `whisper_model_loader`, and invokes the plain
`whisper_init` (no parameter overlay).  The second component records the
adapter's initial offset. -/
def initContextFromInputStream (engine : EngineInitCall → Int) :
    InitResult × Nat :=
  let c := EngineInitCall.initPlain streamWiring
  ( { handle := engine c
    , events := [ .getMethodIDAvailable, .getMethodIDRead, .engine c ] }
  , 0 )

/-- Embeds `Java_com_whispercpp_whisper_WhisperLib_initContext` (jni.c:217-226):
fetches the path string, calls
`whisper_init_from_file_with_params(path, whisper_context_default_params())`,
releases the string, returns the handle. -/
def initContext (engine : EngineInitCall → Int) (path : String) :
    InitResult :=
  let c := EngineInitCall.initFromFile path .defaults
  { handle := engine c
  , events := [ .getStringUTFChars, .engine c, .releaseStringUTFChars ] }

/-- The engine calls a destructor run performs. -/
inductive FreeEvent
  | whisperFree (handle : Int)
  deriving DecidableEq

/-- Embeds `Java_com_whispercpp_whisper_WhisperLib_Companion_freeContext`
(jni.c:235-242): casts the `jlong` back to a context pointer and calls
`whisper_free` on it, with no check of any kind. -/
def freeContext (handle : Int) : List FreeEvent :=
  [.whisperFree handle]

/-! ## Result accessors -/

/-- The engine's result-accessor API, as an oracle: each function maps a
handle (and a segment index) to whatever the engine returns there.  The
index argument is `Int` so that out-of-range and negative indices are in
the domain. -/
structure EngineResultsApi where
  n_segments : Int → Int
  get_segment_text : Int → Int → String
  get_segment_t0 : Int → Int → Int
  get_segment_t1 : Int → Int → Int

/-- Embeds `getTextSegmentCount` (jni.c:300-307): passthrough to
`whisper_full_n_segments`. -/
def getTextSegmentCount (api : EngineResultsApi) (handle : Int) : Int :=
  api.n_segments handle

/-- Embeds `getTextSegment` (jni.c:315-323): passthrough to
`whisper_full_get_segment_text`; `NewStringUTF` is modelled as the
identity on the text. -/
def getTextSegment (api : EngineResultsApi) (handle idx : Int) : String :=
  api.get_segment_text handle idx

/-- Embeds `getTextSegmentT0` (jni.c:328-334): passthrough to
`whisper_full_get_segment_t0`. -/
def getTextSegmentT0 (api : EngineResultsApi) (handle idx : Int) : Int :=
  api.get_segment_t0 handle idx

/-- Embeds `getTextSegmentT1` (jni.c:339-345): passthrough to
`whisper_full_get_segment_t1`. -/
def getTextSegmentT1 (api : EngineResultsApi) (handle idx : Int) : Int :=
  api.get_segment_t1 handle idx

/-- The engine model-loading calls recorded in an initializer trace. -/
def engineCallsOf (evs : List InitEvent) : List EngineInitCall :=
  evs.filterMap (fun e =>
    match e with
    | .engine c => some c
    | _ => none)

/-- Concrete stand-in for the engine's
`whisper_full_default_params(WHISPER_SAMPLING_GREEDY)` oracle, used in
closed instantiations. -/
def dflt0 : SamplingStrategy → WhisperFullParams :=
  fun s => ⟨s, false, true, true, true, true, "auto", 1, 5, false, true, 7⟩

/-- Concrete host read behavior (full delivery), for closed
instantiations. -/
def hbDemoA : HostReadBehavior := ⟨3, [1, 2, 3]⟩

/-- Concrete host read behavior (no delivery), for closed
instantiations. -/
def hbDemoB : HostReadBehavior := ⟨0, []⟩

/-- Concrete sequence of adapter read calls, for closed instantiations. -/
def demoCalls : List (Nat × Int × HostReadBehavior) :=
  [(3, 5, hbDemoA), (10, 2, ⟨2, [7, 8]⟩)]

/-! ## Helper lemmas -/

/-- Values below `2^31` survive the `size_t` → `int` conversion. -/
theorem cIntOfNat_small (n : Nat) (h : n < 2 ^ 31) : cIntOfNat n = (n : Int) := by
  simp only [cIntOfNat, toSigned32]
  rw [Nat.mod_eq_of_lt (show n < 2 ^ 32 by omega)]
  rw [if_pos h]

/-- Non-negative values below `2^64` survive the `int` → `size_t`
conversion. -/
theorem sizeTofNat_nonneg_small (i : Int) (h0 : 0 ≤ i) (h : i < 2 ^ 64) :
    sizeTofNat i = i.toNat := by
  simp only [sizeTofNat]
  rw [Int.emod_eq_of_lt h0 h]

/-- With `available()` a non-negative `jint` and the request below
`2^31`, the C cast chain in `size_to_copy` computes the plain minimum. -/
theorem size_to_copy_in_range (rs : Nat) (av : Int)
    (h1 : rs < 2 ^ 31) (h2 : 0 ≤ av) (h3 : av < 2 ^ 31) :
    size_to_copy rs av = min (rs : Int) av := by
  simp only [size_to_copy]
  rw [Nat.mod_eq_of_lt (show rs < 2 ^ 64 by omega)]
  rw [sizeTofNat_nonneg_small av h2 (by omega)]
  rw [cIntOfNat_small rs h1, cIntOfNat_small av.toNat (by omega)]
  rw [Int.toNat_of_nonneg h2]
  simp only [cMin, min_def]
  split_ifs <;> omega

/-- The `size_t` form of the copy size, under the same range
hypotheses. -/
theorem sizeTofNat_size_to_copy (rs : Nat) (av : Int)
    (h1 : rs < 2 ^ 31) (h2 : 0 ≤ av) (h3 : av < 2 ^ 31) :
    sizeTofNat (size_to_copy rs av) = min rs av.toNat := by
  rw [size_to_copy_in_range rs av h1 h2 h3]
  have hge : (0 : Int) ≤ min (rs : Int) av := le_min (Int.ofNat_nonneg rs) h2
  have hlt : min (rs : Int) av < 2 ^ 64 :=
    lt_of_le_of_lt (min_le_right _ _) (by omega)
  rw [sizeTofNat_nonneg_small _ hge hlt]
  simp only [min_def]
  split_ifs <;> omega

/-- Projection: the value `inputStreamRead` returns. -/
theorem inputStreamRead_ret_eq (offset rs : Nat) (av : Int)
    (hb : HostReadBehavior) :
    (inputStreamRead offset rs av hb).ret
      = sizeTofNat (size_to_copy rs av) := rfl

/-- Projection: the updated adapter offset. -/
theorem inputStreamRead_newOffset_eq (offset rs : Nat) (av : Int)
    (hb : HostReadBehavior) :
    (inputStreamRead offset rs av hb).newOffset
      = (offset + sizeTofNat (size_to_copy rs av)) % 2 ^ 64 := rfl

/-- Projection: the bytes copied into the output buffer. -/
theorem inputStreamRead_copied_eq (offset rs : Nat) (av : Int)
    (hb : HostReadBehavior) :
    (inputStreamRead offset rs av hb).copied
      = hb.delivered.take (sizeTofNat (size_to_copy rs av))
          ++ List.replicate
              (sizeTofNat (size_to_copy rs av) - hb.delivered.length) 0 := rfl

/-- Projection: the insufficient-read log condition. -/
theorem inputStreamRead_logged_eq (offset rs : Nat) (av : Int)
    (hb : HostReadBehavior) :
    (inputStreamRead offset rs av hb).logged
      = !(decide (sizeTofNat (size_to_copy rs av) = rs % 2 ^ 64)
           && decide (size_to_copy rs av = hb.nRead)) := rfl

/-- The number of bytes `memcpy`-ed always equals the value returned,
whatever the host read delivered. -/
theorem inputStreamRead_copied_length (offset rs : Nat) (av : Int)
    (hb : HostReadBehavior) :
    (inputStreamRead offset rs av hb).copied.length
      = (inputStreamRead offset rs av hb).ret := by
  rw [inputStreamRead_copied_eq, inputStreamRead_ret_eq]
  simp only [List.length_append, List.length_take, List.length_replicate]
  omega

/-- Unfolding `runReads` over a sequence of calls: the final offset is
the starting offset plus the sum of the returned counts, modulo `2^64`
(the `size_t` width of the `offset` field). -/
theorem runReads_spec (calls : List (Nat × Int × HostReadBehavior)) :
    ∀ offset : Nat, offset < 2 ^ 64 →
      runReads offset calls
        = ((offset + (retsOf calls).sum) % 2 ^ 64, retsOf calls) := by
  induction calls with
  | nil =>
    intro offset h
    simp only [runReads, retsOf, List.map_nil, List.sum_nil, Nat.add_zero]
    rw [Nat.mod_eq_of_lt h]
  | cons c rest ih =>
    intro offset h
    obtain ⟨rs, av, hb⟩ := c
    have step : runReads offset ((rs, av, hb) :: rest)
        = ((runReads
              ((offset + sizeTofNat (size_to_copy rs av)) % 2 ^ 64) rest).1,
           sizeTofNat (size_to_copy rs av)
             :: (runReads
                  ((offset + sizeTofNat (size_to_copy rs av)) % 2 ^ 64)
                  rest).2) := rfl
    have hlt : (offset + sizeTofNat (size_to_copy rs av)) % 2 ^ 64 < 2 ^ 64 :=
      Nat.mod_lt _ (by norm_num)
    rw [step, ih _ hlt]
    simp only [retsOf, List.map_cons, List.sum_cons, Prod.mk.injEq]
    refine ⟨by omega, trivial⟩

/-! ## Claim theorems -/

/-- C1: when the engine's inference run reports failure (`whisper_full`
returns non-zero), `fullTranscribe` logs the failure and returns
normally: no exception is raised, the JNI return type is `void`, and the
caller-visible outcome is identical to that of a call in which the engine
succeeded — failure is observable only through the subsequent segment
state. -/
theorem fullTranscribe_failure_is_silent
    (defaults : SamplingStrategy → WhisperFullParams) (fullResult : Int)
    (lang : String) (numThreads : Int) (translate : Bool) (audio : List Int)
    (h : fullResult ≠ 0) :
    TranscribeEvent.logInfo "Failed to run the model"
        ∈ (fullTranscribe defaults fullResult lang numThreads translate audio).trace
    ∧ (fullTranscribe defaults fullResult lang numThreads translate
        audio).javaException = none
    ∧ ∀ r' : Int,
        callerVisible
            (fullTranscribe defaults fullResult lang numThreads translate audio)
          = callerVisible
              (fullTranscribe defaults r' lang numThreads translate audio) := by
  refine ⟨?_, rfl, fun r' => rfl⟩
  simp [fullTranscribe, h]

/-- Closed instantiation of `fullTranscribe_failure_is_silent` at engine
result 1. -/
theorem fullTranscribe_failure_is_silent_witness :
    (1 : Int) ≠ 0
    ∧ TranscribeEvent.logInfo "Failed to run the model"
        ∈ (fullTranscribe dflt0 1 "en" 4 false [0, 0]).trace
    ∧ (fullTranscribe dflt0 1 "en" 4 false [0, 0]).javaException = none
    ∧ callerVisible (fullTranscribe dflt0 1 "en" 4 false [0, 0])
        = callerVisible (fullTranscribe dflt0 0 "en" 4 false [0, 0]) := by
  have h := fullTranscribe_failure_is_silent dflt0 1 "en" 4 false [0, 0]
    (by norm_num)
  exact ⟨by norm_num, h.1, h.2.1, h.2.2 0⟩

/-- C2: on a stream-adapter read whose reported available-count is at
least the requested size, `read` returns exactly the requested size and
the bytes obtained from the host stream appear verbatim at the front of
the output buffer; when the available-count is smaller, `read` returns
that smaller value and the under-read is logged.  The range hypotheses
say the request and the `jint` available-count are below `2^31`, and (for
the byte-matching part) that the host read delivered at most the
requested number of bytes, as the `InputStream.read` contract
guarantees. -/
theorem inputStreamRead_available_cases
    (offset rs : Nat) (av : Int) (hb : HostReadBehavior)
    (h1 : rs < 2 ^ 31) (h2 : 0 ≤ av) (h3 : av < 2 ^ 31) :
    ((rs : Int) ≤ av → hb.delivered.length ≤ rs →
        (inputStreamRead offset rs av hb).ret = rs
        ∧ (inputStreamRead offset rs av hb).copied.take hb.delivered.length
            = hb.delivered)
    ∧ (av < (rs : Int) →
        (inputStreamRead offset rs av hb).ret = av.toNat
        ∧ (inputStreamRead offset rs av hb).logged = true) := by
  have hmin := sizeTofNat_size_to_copy rs av h1 h2 h3
  constructor
  · intro hle hdl
    have hr : min rs av.toNat = rs := by omega
    constructor
    · rw [inputStreamRead_ret_eq, hmin, hr]
    · rw [inputStreamRead_copied_eq, hmin, hr]
      rw [List.take_of_length_le hdl]
      have := List.take_left hb.delivered
        (List.replicate (rs - hb.delivered.length) (0 : Int))
      exact this
  · intro hlt
    have hr : min rs av.toNat = av.toNat := by omega
    constructor
    · rw [inputStreamRead_ret_eq, hmin, hr]
    · rw [inputStreamRead_logged_eq]
      have hne : sizeTofNat (size_to_copy rs av) ≠ rs % 2 ^ 64 := by
        rw [hmin, Nat.mod_eq_of_lt (show rs < 2 ^ 64 by omega)]
        omega
      rw [decide_eq_false hne, Bool.false_and, Bool.not_false]

/-- Closed instantiations of `inputStreamRead_available_cases`: a read of
4 with 9 available (full delivery of 4 bytes) and a read of 6 with only
2 available. -/
theorem inputStreamRead_available_cases_witness :
    (inputStreamRead 0 4 9 ⟨4, [1, 2, 3, 4]⟩).ret = 4
    ∧ (inputStreamRead 0 4 9 ⟨4, [1, 2, 3, 4]⟩).copied.take 4 = [1, 2, 3, 4]
    ∧ (inputStreamRead 0 6 2 ⟨2, [7, 8]⟩).ret = 2
    ∧ (inputStreamRead 0 6 2 ⟨2, [7, 8]⟩).logged = true := by
  have hA := (inputStreamRead_available_cases 0 4 9 ⟨4, [1, 2, 3, 4]⟩
    (by norm_num) (by norm_num) (by norm_num)).1 (by norm_num) (by decide)
  have hB := (inputStreamRead_available_cases 0 6 2 ⟨2, [7, 8]⟩
    (by norm_num) (by norm_num) (by norm_num)).2 (by norm_num)
  exact ⟨hA.1, hA.2, hB.1, hB.2⟩

/-- C3: the stream adapter's `eof` returns true exactly when the
available-count the host stream reports at call time is ≤ 0 (in
particular it is true at exactly zero, and also at any negative
count). -/
theorem inputStreamEof_iff_nonpositive (avail : Int) :
    inputStreamEof avail = true ↔ avail ≤ 0 := by
  simp [inputStreamEof]

/-- Closed instantiations of `inputStreamEof_iff_nonpositive` at 0, -7
and 1. -/
theorem inputStreamEof_iff_nonpositive_witness :
    inputStreamEof 0 = true ∧ inputStreamEof (-7) = true
      ∧ inputStreamEof 1 = false := by
  refine ⟨(inputStreamEof_iff_nonpositive 0).mpr (by norm_num),
          (inputStreamEof_iff_nonpositive (-7)).mpr (by norm_num),
          by decide⟩

/-- C4: every `fullTranscribe` call builds a fresh parameter set from the
engine's greedy-sampling defaults with realtime, progress, timestamp and
special-token printing disabled, no-context on, single-segment off,
offset 0, and the caller's language, thread count and translate flag
overlaid (all remaining fields kept at their default values); and it
resets the context's timing statistics before invoking the inference
run — the `resetTimings` event sits at position 4 of the trace, strictly
before the `callFull` event at position 6. -/
theorem fullTranscribe_params_overlay_and_reset
    (defaults : SamplingStrategy → WhisperFullParams) (fullResult : Int)
    (lang : String) (numThreads : Int) (translate : Bool) (audio : List Int) :
    (fullTranscribe defaults fullResult lang numThreads translate
        audio).trace.take 7
      = [ .getFloatArrayElements, .getArrayLength, .getStringUTFChars
        , .logInfo ("Language: " ++ lang)
        , .resetTimings
        , .logInfo "About to run whisper_full"
        , .callFull (overlayParams (defaults .greedy) lang numThreads translate)
            audio.length ]
    ∧ paramsSentToEngine
        (fullTranscribe defaults fullResult lang numThreads translate
          audio).trace
        = some (overlayParams (defaults .greedy) lang numThreads translate)
    ∧ (overlayParams (defaults .greedy) lang numThreads
        translate).print_realtime = false
    ∧ (overlayParams (defaults .greedy) lang numThreads
        translate).print_progress = false
    ∧ (overlayParams (defaults .greedy) lang numThreads
        translate).print_timestamps = false
    ∧ (overlayParams (defaults .greedy) lang numThreads
        translate).print_special = false
    ∧ (overlayParams (defaults .greedy) lang numThreads
        translate).no_context = true
    ∧ (overlayParams (defaults .greedy) lang numThreads
        translate).single_segment = false
    ∧ (overlayParams (defaults .greedy) lang numThreads
        translate).offset_ms = 0
    ∧ (overlayParams (defaults .greedy) lang numThreads
        translate).language = lang
    ∧ (overlayParams (defaults .greedy) lang numThreads
        translate).n_threads = numThreads
    ∧ (overlayParams (defaults .greedy) lang numThreads
        translate).translate = translate
    ∧ (overlayParams (defaults .greedy) lang numThreads
        translate).strategy = (defaults .greedy).strategy
    ∧ (overlayParams (defaults .greedy) lang numThreads
        translate).otherDefaults = (defaults .greedy).otherDefaults := by
  refine ⟨rfl, rfl, rfl, rfl, rfl, rfl, rfl, rfl, rfl, rfl, rfl, rfl, rfl, rfl⟩

/-- C5: when the asset manager cannot open the requested path, the
asset-based initializer logs a warning and returns handle 0 with no
engine loader invoked (its trace holds no engine call at all); when the
open succeeds, it wires the asset-backed `asset_read`/`asset_is_eof`/
`asset_close` callbacks into `whisper_init_with_params` together with the
engine's default context parameters, and the JNI entry point forwards
that handle. -/
theorem initFromAsset_failure_and_success
    (engine : EngineInitCall → Int) (path : String) :
    (whisper_init_from_asset engine false path).handle = 0
    ∧ (whisper_init_from_asset engine false path).events
        = [ .logLoadingAsset path, .assetManagerFromJava
          , .assetOpenStreaming path, .logWarnOpenFailed path ]
    ∧ engineCallsOf (whisper_init_from_asset engine false path).events = []
    ∧ (initContextFromAsset engine false path).handle = 0
    ∧ (whisper_init_from_asset engine true path).handle
        = engine (.initWithParams assetWiring .defaults)
    ∧ engineCallsOf (whisper_init_from_asset engine true path).events
        = [.initWithParams assetWiring .defaults]
    ∧ (initContextFromAsset engine true path).handle
        = engine (.initWithParams assetWiring .defaults)
    ∧ assetWiring = ⟨"asset_read", "asset_is_eof", "asset_close"⟩ := by
  refine ⟨rfl, rfl, rfl, rfl, rfl, rfl, rfl, rfl⟩

/-- C6: the stream-based initializer wires the stream adapter's
read/eof/close callbacks into the engine's plain, parameterless
`whisper_init` entry point (no default-parameter overlay) with the
adapter's offset starting at 0, the filesystem-path initializer delegates
directly to `whisper_init_from_file_with_params` with engine default
parameters and performs no adapter wiring, and each returns the engine's
result as its integer handle (hence 0 exactly when the loader returned
null). -/
theorem initFromStream_and_initFromPath
    (engine : EngineInitCall → Int) (path : String) :
    (initContextFromInputStream engine).1.handle
        = engine (.initPlain streamWiring)
    ∧ engineCallsOf (initContextFromInputStream engine).1.events
        = [.initPlain streamWiring]
    ∧ (initContextFromInputStream engine).2 = 0
    ∧ streamWiring
        = ⟨"inputStreamRead", "inputStreamEof", "inputStreamClose"⟩
    ∧ (initContext engine path).handle
        = engine (.initFromFile path .defaults)
    ∧ engineCallsOf (initContext engine path).events
        = [.initFromFile path .defaults] := by
  refine ⟨rfl, rfl, rfl, rfl, rfl, rfl⟩

/-- C7: the destructor invokes the engine's `whisper_free` on whatever
handle value it is given, unconditionally — no validation, no null check
(handle 0 included), no liveness tracking of its own. -/
theorem freeContext_unconditional_passthrough (handle : Int) :
    freeContext handle = [.whisperFree handle]
    ∧ freeContext 0 = [.whisperFree 0] :=
  ⟨rfl, rfl⟩

/-- C8: the four result accessors are exact passthroughs to the
corresponding engine accessors at the same handle and index; the index is
universally quantified over all of `Int`, so out-of-range and negative
indices are forwarded unchanged with no bounds check or transformation in
this layer. -/
theorem segment_accessors_passthrough
    (api : EngineResultsApi) (handle idx : Int) :
    getTextSegmentCount api handle = api.n_segments handle
    ∧ getTextSegment api handle idx = api.get_segment_text handle idx
    ∧ getTextSegmentT0 api handle idx = api.get_segment_t0 handle idx
    ∧ getTextSegmentT1 api handle idx = api.get_segment_t1 handle idx :=
  ⟨rfl, rfl, rfl, rfl⟩

/-- C9: every host buffer crossing the boundary is released before the
call returns, on the failure path as much as on the success path (the
engine result is universally quantified): `fullTranscribe`'s trace always
holds the language-string release and the sample-array release with
`JNI_ABORT` — whose JNI semantics discard native-side modifications, so
the caller's array is unchanged — and the stream adapter's read releases
its byte-array elements with `JNI_ABORT` and deletes its local reference
unconditionally. -/
theorem boundary_buffers_released
    (defaults : SamplingStrategy → WhisperFullParams) (fullResult : Int)
    (lang : String) (numThreads : Int) (translate : Bool) (audio : List Int)
    (offset rs : Nat) (av : Int) (hb : HostReadBehavior)
    (orig scratch : List Int) :
    TranscribeEvent.releaseStringUTFChars
        ∈ (fullTranscribe defaults fullResult lang numThreads translate
            audio).trace
    ∧ TranscribeEvent.releaseFloatArrayElements .jniAbort
        ∈ (fullTranscribe defaults fullResult lang numThreads translate
            audio).trace
    ∧ releaseFloatArray .jniAbort orig scratch = orig
    ∧ (inputStreamRead offset rs av hb).releasedByteArrayAbort = true
    ∧ (inputStreamRead offset rs av hb).deletedLocalRef = true := by
  refine ⟨?_, ?_, rfl, rfl, rfl⟩ <;> simp [fullTranscribe]

/-- C10: each stream-adapter read returns, and advances the offset
counter by, exactly min(requested size, reported available-count) — a
value fixed before the host stream's read method runs: the returned
count, the copy length and the offset update are all independent of the
host read behavior (what it delivered and what count it reported); and
over any sequence of reads starting from the adapter's initial offset 0,
the offset equals the sum of all returned counts (exactly, whenever that
sum fits in `size_t`). -/
theorem inputStreamRead_offset_counts
    (offset rs : Nat) (av : Int) (hb hb' : HostReadBehavior)
    (calls : List (Nat × Int × HostReadBehavior)) :
    (rs < 2 ^ 31 → 0 ≤ av → av < 2 ^ 31 →
        (inputStreamRead offset rs av hb).ret = min rs av.toNat
        ∧ (inputStreamRead offset rs av hb).newOffset
            = (offset + min rs av.toNat) % 2 ^ 64)
    ∧ ((inputStreamRead offset rs av hb).ret
          = (inputStreamRead offset rs av hb').ret
        ∧ (inputStreamRead offset rs av hb).copied.length
            = (inputStreamRead offset rs av hb').copied.length
        ∧ (inputStreamRead offset rs av hb).newOffset
            = (inputStreamRead offset rs av hb').newOffset)
    ∧ ((retsOf calls).sum < 2 ^ 64 →
        (runReads 0 calls).1 = (retsOf calls).sum
        ∧ (runReads 0 calls).2 = retsOf calls) := by
  refine ⟨?_, ⟨rfl, ?_, rfl⟩, ?_⟩
  · intro h1 h2 h3
    have hmin := sizeTofNat_size_to_copy rs av h1 h2 h3
    exact ⟨by rw [inputStreamRead_ret_eq, hmin],
           by rw [inputStreamRead_newOffset_eq, hmin]⟩
  · rw [inputStreamRead_copied_length, inputStreamRead_copied_length]
    rfl
  · intro hsum
    have hrun := runReads_spec calls 0 (by norm_num)
    rw [hrun]
    refine ⟨?_, rfl⟩
    rw [Nat.zero_add]
    exact Nat.mod_eq_of_lt hsum

/-- Closed instantiation of `inputStreamRead_offset_counts`: a read of 3
with 5 available under two different host behaviors, and a two-call
sequence whose final offset is the sum of the returned counts. -/
theorem inputStreamRead_offset_counts_witness :
    (3 : Nat) < 2 ^ 31 ∧ (0 : Int) ≤ 5 ∧ (5 : Int) < 2 ^ 31
    ∧ (retsOf demoCalls).sum < 2 ^ 64
    ∧ (inputStreamRead 0 3 5 hbDemoA).ret = min 3 (Int.toNat 5)
    ∧ (inputStreamRead 0 3 5 hbDemoA).newOffset
        = (0 + min 3 (Int.toNat 5)) % 2 ^ 64
    ∧ (inputStreamRead 0 3 5 hbDemoA).ret = (inputStreamRead 0 3 5 hbDemoB).ret
    ∧ (runReads 0 demoCalls).1 = (retsOf demoCalls).sum
    ∧ (runReads 0 demoCalls).2 = retsOf demoCalls := by
  have h := inputStreamRead_offset_counts 0 3 5 hbDemoA hbDemoB demoCalls
  have hA := h.1 (by norm_num) (by norm_num) (by norm_num)
  have hC := h.2.2 (by decide)
  exact ⟨by norm_num, by norm_num, by norm_num, by decide,
         hA.1, hA.2, h.2.1.1, hC.1, hC.2⟩
